import Mathlib

/-!
The hima_hotplug driver: decision engine, controller, lifecycle and control surface.

A shallow embedding of `arch/arm64/hotplug/hima_hotplug.c`.

* `unsigned int` values are naturals, reduced modulo `2 ^ 32` where the C
  arithmetic can wrap; `unsigned long` and `s64` values likewise modulo `2 ^ 64`.
  A value held in an `int` is an integer, obtained through `uint_to_int`.
* Constants that come from kernel headers (`FSHIFT`, `NR_CPUS`, `nr_cpu_ids`,
  `EINVAL`, `ENOMEM`) are parameters of the definitions that use them.
* Values produced outside the file (`avg_nr_running()`, `avg_cpu_nr_running(cpu)`,
  `ktime_to_ms(ktime_get())`, the result of `alloc_workqueue` and of
  `state_register_client`) are parameters as well.
-/

namespace HimaHotplug

/-! ## Machine arithmetic -/

/-- The largest `unsigned int`. -/
def UINT_MAX : Nat := 2 ^ 32 - 1

/-- C `x << k` on `unsigned int`: the bits shifted past bit 31 are lost. -/
def shl_u32 (x k : Nat) : Nat := (x <<< k) % 2 ^ 32

/-- C `a - b` on `unsigned int` (wraps modulo `2 ^ 32`). -/
def sub_u32 (a b : Nat) : Nat := (a % 2 ^ 32 + (2 ^ 32 - b % 2 ^ 32)) % 2 ^ 32

/-- C `a - b` on `unsigned long` (wraps modulo `2 ^ 64`). -/
def sub_u64 (a b : Nat) : Nat := (a % 2 ^ 64 + (2 ^ 64 - b % 2 ^ 64)) % 2 ^ 64

/-- An `unsigned int` bit pattern stored in an `int` and then converted to
`unsigned long` for a comparison: patterns with bit 31 set are sign-extended. -/
def int_to_ulong (x : Nat) : Nat :=
  if x % 2 ^ 32 < 2 ^ 31 then x % 2 ^ 32 else x % 2 ^ 32 + (2 ^ 64 - 2 ^ 32)

/-- The conversion of an `unsigned int` value stored into an `int`: bit patterns
with bit 31 set become negative. -/
def uint_to_int (x : Nat) : Int :=
  if x % 2 ^ 32 < 2 ^ 31 then ((x % 2 ^ 32 : Nat) : Int)
  else ((x % 2 ^ 32 : Nat) : Int) - 2 ^ 32

/-- The conversion of an `int` to `unsigned int`, as C applies it to the `int`
operand of a comparison whose other operand is `unsigned int`. -/
def int_to_uint (x : Int) : Nat := (x % 2 ^ 32).toNat

/-! ## Profile tables -/

/-- The table `nr_run_thresholds_balanced`. -/
def nr_run_thresholds_balanced : List Nat := [12, 35, 53, 71, UINT_MAX]

/-- The table `nr_run_thresholds_disable`. -/
def nr_run_thresholds_disable : List Nat := [0, 0, 0, 0, 0, 0, 0, 0, UINT_MAX]

/-- What `p[i]` reads when `p` points at the first entry of `table`: the entry
when `i` is inside the table, and otherwise the word `beyond i` that lies in
memory at that offset. -/
def table_ptr (table : List Nat) (beyond : Nat → Nat) (i : Nat) : Nat :=
  if h : i < table.length then table[i] else beyond i

/-- The constant `ARRAY_SIZE(nr_run_thresholds_balanced)`. -/
def threshold_size : Nat := nr_run_thresholds_balanced.length

/-! ## Decision engine -/

/-- The controlling expression of the `for` loop of `calculate_thread_stats`,
`(nr_run < threshold_size) - min_cpus_online`: the comparison yields `0` or `1`,
from which `min_cpus_online` is subtracted in `unsigned int`. -/
def loop_cond (nr_run min_cpus_online : Nat) : Nat :=
  sub_u32 (if nr_run < threshold_size then 1 else 0) min_cpus_online

/-- The `for` loop of `calculate_thread_stats`, entered with the current value of
`nr_run`; it runs while `loop_cond` is not zero. `current_profile` is the pointer
`nr_run_profiles[current_profile_no]`, read at an offset; `avg_nr_run` is the
value of the local of that name. The shift count is `FSHIFT - nr_fshift`, which C
defines only while `nr_fshift ≤ FSHIFT` and the count is below 32. -/
def calculate_thread_stats_loop (FSHIFT min_cpus_online max_cpus_online nr_fshift : Nat)
    (current_profile : Nat → Nat) (avg_nr_run : Nat) (nr_run : Nat) : Nat :=
  if loop_cond nr_run min_cpus_online ≠ 0 then
    if h : avg_nr_run ≤ shl_u32 (current_profile (nr_run - min_cpus_online)) (FSHIFT - nr_fshift)
        ∨ nr_run ≥ max_cpus_online then
      nr_run
    else
      calculate_thread_stats_loop FSHIFT min_cpus_online max_cpus_online nr_fshift
        current_profile avg_nr_run (nr_run + 1)
  else nr_run
termination_by max_cpus_online - nr_run
decreasing_by omega

/-- The function `calculate_thread_stats`. -/
def calculate_thread_stats (FSHIFT min_cpus_online max_cpus_online nr_fshift : Nat)
    (current_profile : Nat → Nat) (avg_nr_run : Nat) : Nat :=
  calculate_thread_stats_loop FSHIFT min_cpus_online max_cpus_online nr_fshift
    current_profile avg_nr_run min_cpus_online

/-- The stopping test of the loop body at `nr_run = n`:
`avg_nr_run <= (nr_threshold << (FSHIFT - nr_fshift)) || nr_run >= max_cpus_online`. -/
def stops (FSHIFT min_cpus_online max_cpus_online nr_fshift : Nat)
    (current_profile : Nat → Nat) (avg_nr_run : Nat) (n : Nat) : Prop :=
  avg_nr_run ≤ shl_u32 (current_profile (n - min_cpus_online)) (FSHIFT - nr_fshift)
    ∨ n ≥ max_cpus_online

instance (FSHIFT min_cpus_online max_cpus_online nr_fshift : Nat)
    (current_profile : Nat → Nat) (avg_nr_run : Nat) (n : Nat) :
    Decidable (stops FSHIFT min_cpus_online max_cpus_online nr_fshift current_profile
      avg_nr_run n) := by
  unfold stops
  infer_instance

/-! ## Driver state -/

/-- The record `struct ip_cpu_info`, one per cpu. -/
structure ip_cpu_info where
  cpu_nr_running : Nat
  cpu_up_time : Nat

/-- The file-scope driver controls and tuning variables. -/
structure Tunables where
  min_cpus_online : Nat
  max_cpus_online : Nat
  min_cpu_up_time : Nat
  def_sampling_ms : Nat
  nr_fshift : Nat
  current_profile_no : Nat
  cpu_nr_run_threshold : Nat

/-- The constant `CPU_NR_THRESHOLD`, `(THREAD_CAPACITY << 1) - (THREAD_CAPACITY >> 1)`
with `THREAD_CAPACITY = 350`. -/
def CPU_NR_THRESHOLD : Nat := (350 <<< 1) - (350 >>> 1)

/-- The initial values of the file-scope variables. -/
def default_tunables : Tunables where
  min_cpus_online := 4
  max_cpus_online := 8
  min_cpu_up_time := 2000
  def_sampling_ms := 300
  nr_fshift := 4
  current_profile_no := 0
  cpu_nr_run_threshold := CPU_NR_THRESHOLD

/-- The cpu side of the state: `cpu_online_mask` and the per-cpu `ip_info`. -/
structure Cpus where
  online : Nat → Bool
  ip_info : Nat → ip_cpu_info

/-- A power command handed to the hotplug core. -/
inductive Cmd where
  | cpu_up (cpu : Nat)
  | cpu_down (cpu : Nat)
deriving DecidableEq

/-- What one pass reads from outside the file: `FSHIFT`, `nr_cpu_ids`, the pointer
`nr_run_profiles[current_profile_no]`, the value stored in `avg_nr_run`, the
function `avg_cpu_nr_running`, and for each cpu the value of
`ktime_to_ms(ktime_get())` read in the loop iteration of that cpu. -/
structure Env where
  FSHIFT : Nat
  nr_cpu_ids : Nat
  current_profile : Nat → Nat
  avg_nr_run : Nat
  avg_cpu_nr_running : Nat → Nat
  ktime_ms : Nat → Nat

/-- The count `num_online_cpus()`: the online cpus among `0 .. nr_cpu_ids - 1`. -/
def num_online_cpus : Nat → (Nat → Bool) → Nat
  | 0, _ => 0
  | n + 1, online => num_online_cpus n online + (if online n then 1 else 0)

/-- The call `cpu_down(cpu)`, taken to succeed: the cpu leaves the online mask. -/
def cpu_down (cpu : Nat) (s : Cpus) : Cpus :=
  { s with online := fun c => if c = cpu then false else s.online c }

/-- The call `cpu_up(cpu)`, taken to succeed: the cpu enters the online mask. -/
def cpu_up (cpu : Nat) (s : Cpus) : Cpus :=
  { s with online := fun c => if c = cpu then true else s.online c }

/-- The assignment `per_cpu(ip_info, cpu).cpu_nr_running = v`. -/
def set_cpu_nr_running (cpu v : Nat) (s : Cpus) : Cpus :=
  { s with ip_info := fun c =>
      if c = cpu then { s.ip_info c with cpu_nr_running := v } else s.ip_info c }

/-- The assignment `per_cpu(ip_info, cpu).cpu_up_time = v`. -/
def set_cpu_up_time (cpu v : Nat) (s : Cpus) : Cpus :=
  { s with ip_info := fun c =>
      if c = cpu then { s.ip_info c with cpu_up_time := v } else s.ip_info c }

/-- The function `update_per_cpu_stat`: a first loop over the online cpus stores the
fresh load, a second loop over the cpus that are not online clears `cpu_up_time`. -/
def update_per_cpu_stat (e : Env) (s : Cpus) : Cpus :=
  let s1 := (List.range e.nr_cpu_ids).foldl
    (fun s cpu => if s.online cpu then set_cpu_nr_running cpu (e.avg_cpu_nr_running cpu) s else s) s
  (List.range e.nr_cpu_ids).foldl
    (fun s cpu => if s.online cpu then s else set_cpu_up_time cpu 0 s) s1

/-! ## Controller -/

/-- The value assigned to `l_nr_threshold`: the expression
`cpu_nr_run_threshold << 1 / (num_online_cpus())`, in which the division binds
tighter than the shift, so that the shift count is `1 / num_online_cpus()`. -/
def l_nr_threshold (cpu_nr_run_threshold online_cpus : Nat) : Nat :=
  shl_u32 cpu_nr_run_threshold (1 / online_cpus)

/-- The power-down loop of `cpu_up_down_work` over the cpu numbers still to visit.
A cpu that is not online is not visited. `target` is the value that the test
`num_online_cpus() <= target` compares against, the `int target` converted to
`unsigned int`. The result is the final state and the commands issued, in order. -/
def power_down_loop (t : Tunables) (e : Env) (target : Nat) : List Nat → Cpus → Cpus × List Cmd
  | [], s => (s, [])
  | cpu :: rest, s =>
    if s.online cpu then
      if cpu ≤ 3 ∨ sub_u64 (e.ktime_ms cpu) (s.ip_info cpu).cpu_up_time < t.min_cpu_up_time then
        power_down_loop t e target rest s
      else
        if (s.ip_info cpu).cpu_nr_running <
            int_to_ulong (l_nr_threshold t.cpu_nr_run_threshold
              (num_online_cpus e.nr_cpu_ids s.online)) then
          if num_online_cpus e.nr_cpu_ids (cpu_down cpu s).online ≤ target then
            (cpu_down cpu s, [Cmd.cpu_down cpu])
          else
            ((power_down_loop t e target rest (cpu_down cpu s)).1,
              Cmd.cpu_down cpu :: (power_down_loop t e target rest (cpu_down cpu s)).2)
        else
          if num_online_cpus e.nr_cpu_ids s.online ≤ target then (s, [])
          else power_down_loop t e target rest s
    else power_down_loop t e target rest s

/-- The power-up loop of `cpu_up_down_work` over the cpu numbers still to visit.
A cpu that is online is not visited. `target` is the value that the test
`num_online_cpus() >= target` compares against, the `int target` converted to
`unsigned int`. -/
def power_up_loop (e : Env) (target : Nat) : List Nat → Cpus → Cpus × List Cmd
  | [], s => (s, [])
  | cpu :: rest, s =>
    if s.online cpu then power_up_loop e target rest s
    else if cpu ≤ 3 then power_up_loop e target rest s
    else
      if num_online_cpus e.nr_cpu_ids
          (set_cpu_up_time cpu (e.ktime_ms cpu) (cpu_up cpu s)).online ≥ target then
        (set_cpu_up_time cpu (e.ktime_ms cpu) (cpu_up cpu s), [Cmd.cpu_up cpu])
      else
        ((power_up_loop e target rest (set_cpu_up_time cpu (e.ktime_ms cpu) (cpu_up cpu s))).1,
          Cmd.cpu_up cpu ::
            (power_up_loop e target rest (set_cpu_up_time cpu (e.ktime_ms cpu) (cpu_up cpu s))).2)

/-- The function `cpu_up_down_work`: one pass of the controller. The locals
`target` and `online_cpus` are `int`: the tests `target == online_cpus` and
`target < online_cpus` compare them as signed integers, while the two `break` tests
inside the loops compare `num_online_cpus()` with `target` as `unsigned int`. -/
def cpu_up_down_work (t : Tunables) (e : Env) (s : Cpus) : Cpus × List Cmd :=
  let target : Int := uint_to_int
    (calculate_thread_stats e.FSHIFT t.min_cpus_online t.max_cpus_online t.nr_fshift
      e.current_profile e.avg_nr_run)
  let online_cpus : Int := uint_to_int (num_online_cpus e.nr_cpu_ids s.online)
  if target = online_cpus then (s, [])
  else if target < online_cpus then
    power_down_loop t e (int_to_uint target) (List.range e.nr_cpu_ids)
      (update_per_cpu_stat e s)
  else
    power_up_loop e (int_to_uint target) (List.range e.nr_cpu_ids) (update_per_cpu_stat e s)

/-- The loop `for_each_cpu_not(cpu, cpu_online_mask) cpu_up(cpu);` over the cpu
numbers still to visit. -/
def cpu_up_all : List Nat → Cpus → Cpus × List Cmd
  | [], s => (s, [])
  | cpu :: rest, s =>
    if s.online cpu then cpu_up_all rest s
    else ((cpu_up_all rest (cpu_up cpu s)).1, Cmd.cpu_up cpu :: (cpu_up_all rest (cpu_up cpu s)).2)

/-- The function `hima_hotplug_resume`. -/
def hima_hotplug_resume (nr_cpu_ids : Nat) (s : Cpus) : Cpus × List Cmd :=
  cpu_up_all (List.range nr_cpu_ids) s

/-- What can happen to the cpus while the driver is active: a run of
`cpu_up_down_work` under the tunables and readings of that moment, or the resume
notification. -/
inductive Event where
  | pass (t : Tunables) (e : Env)
  | resume (nr_cpu_ids : Nat)

/-- The effect of one event. -/
def Event.apply : Event → Cpus → Cpus × List Cmd
  | Event.pass t e, s => cpu_up_down_work t e s
  | Event.resume n, s => hima_hotplug_resume n s

/-- The effect of a sequence of events, with all the commands they issue. -/
def run_events : List Event → Cpus → Cpus × List Cmd
  | [], s => (s, [])
  | ev :: rest, s =>
    ((run_events rest (ev.apply s).1).1, (ev.apply s).2 ++ (run_events rest (ev.apply s).1).2)

/-! ## Lifecycle -/

/-- The lifecycle side of the state: the atomic `hima_hotplug_active`, whether
`hima_hotplug_wq` holds a live workqueue, whether `notif` is registered, whether
`hima_hotplug_work` is queued, and the cpus. -/
structure Driver where
  hima_hotplug_active : Nat
  wq_allocated : Bool
  notif_registered : Bool
  work_queued : Bool
  cpus : Cpus

/-- The function `hima_hotplug_start`, built with `CONFIG_STATE_NOTIFIER`.
`alloc_ok` tells whether `alloc_workqueue` returned a workqueue and
`register_ret` is the value returned by `state_register_client`. The result is
the new state and the returned `ret`. -/
def hima_hotplug_start (ENOMEM : Int) (alloc_ok : Bool) (register_ret : Int)
    (nr_cpu_ids : Nat) (d : Driver) : Driver × Int :=
  let ret : Int := 0
  if !alloc_ok then
    -- `ret = -ENOMEM; goto err_out;`
    let ret := -ENOMEM
    ({ d with wq_allocated := false, hima_hotplug_active := 0 }, ret)
  else if register_ret ≠ 0 then
    -- `goto err_dev;` then falls into `err_out`
    ({ d with wq_allocated := false, hima_hotplug_active := 0 }, ret)
  else
    ({ d with wq_allocated := true, notif_registered := true,
              cpus := (cpu_up_all (List.range nr_cpu_ids) d.cpus).1,
              work_queued := true }, ret)

/-- The function `hima_hotplug_stop`. -/
def hima_hotplug_stop (d : Driver) : Driver :=
  { d with work_queued := false, notif_registered := false, wq_allocated := false }

/-- The function `hima_hotplug_active_eval_fn`. -/
def hima_hotplug_active_eval_fn (ENOMEM : Int) (alloc_ok : Bool) (register_ret : Int)
    (nr_cpu_ids : Nat) (status : Nat) (d : Driver) : Driver :=
  if status = 1 then
    let r := hima_hotplug_start ENOMEM alloc_ok register_ret nr_cpu_ids d
    let status := if r.2 ≠ 0 then 0 else status
    { r.1 with hima_hotplug_active := status }
  else
    { hima_hotplug_stop d with hima_hotplug_active := status }

/-! ## Control surface -/

/-- The function `store_min_cpus_online`. `input` is what `sscanf(buf, fmt, &val)`
produced: `none` when it did not convert one item, `some val` otherwise. The
result is the new tunables and the returned value. -/
def store_min_cpus_online (EINVAL : Int) (NR_CPUS : Nat) (input : Option Nat) (count : Nat)
    (t : Tunables) : Tunables × Int :=
  match input with
  | none => (t, -EINVAL)
  | some val =>
    if val < 1 ∨ val > NR_CPUS then (t, -EINVAL)
    else
      let t1 := if t.max_cpus_online < val then { t with max_cpus_online := val } else t
      ({ t1 with min_cpus_online := val }, (count : Int))

/-- The function `store_max_cpus_online`, with the same conventions. -/
def store_max_cpus_online (EINVAL : Int) (NR_CPUS : Nat) (input : Option Nat) (count : Nat)
    (t : Tunables) : Tunables × Int :=
  match input with
  | none => (t, -EINVAL)
  | some val =>
    if val < 1 ∨ val > NR_CPUS then (t, -EINVAL)
    else
      let t1 := if t.min_cpus_online > val then { t with min_cpus_online := val } else t
      ({ t1 with max_cpus_online := val }, (count : Int))

/-- Well-formed bounds: `1 ≤ min_cpus_online ≤ max_cpus_online ≤ NR_CPUS`. -/
def bounds_ok (NR_CPUS : Nat) (t : Tunables) : Prop :=
  1 ≤ t.min_cpus_online ∧ t.min_cpus_online ≤ t.max_cpus_online ∧ t.max_cpus_online ≤ NR_CPUS

instance (NR_CPUS : Nat) (t : Tunables) : Decidable (bounds_ok NR_CPUS t) := by
  unfold bounds_ok
  infer_instance

/-- A cpu that the power-down loop leaves online while at least two cpus are online:
it is offline already, or it is skipped (reserved or inside its dwell time), or its
load is not below the threshold. -/
def settled (t : Tunables) (e : Env) (s : Cpus) (c : Nat) : Prop :=
  s.online c = true →
    (c ≤ 3 ∨ sub_u64 (e.ktime_ms c) (s.ip_info c).cpu_up_time < t.min_cpu_up_time)
      ∨ ¬ (s.ip_info c).cpu_nr_running
          < int_to_ulong (l_nr_threshold t.cpu_nr_run_threshold 2)

instance (t : Tunables) (e : Env) (s : Cpus) (c : Nat) : Decidable (settled t e s c) := by
  unfold settled
  infer_instance

/-- The condition under which a cpu above 3 that the power-down loop examines is
never the only online cpu: the target is at least 1, or some reserved cpu is online. -/
def guarded (e : Env) (target : Nat) (s : Cpus) : Prop :=
  1 ≤ target ∨ ∃ c, c < 4 ∧ (c < e.nr_cpu_ids ∧ s.online c = true)

instance (e : Env) (target : Nat) (s : Cpus) : Decidable (guarded e target s) := by
  unfold guarded
  infer_instance

/-! ## Concrete inputs -/

/-- An environment with eight cpus, `FSHIFT = 11`, the balanced table selected, the
same load on every cpu and a clock that reads `now` throughout the pass. -/
def sample_env (avg_nr_run load now : Nat) : Env where
  FSHIFT := 11
  nr_cpu_ids := 8
  current_profile := table_ptr nr_run_thresholds_balanced (fun _ => 0)
  avg_nr_run := avg_nr_run
  avg_cpu_nr_running := fun _ => load
  ktime_ms := fun _ => now

/-- Cpus 0 to 3 online, cpus 4 to 7 offline, all records zero. -/
def reserved_only : Cpus where
  online := fun c => decide (c < 4)
  ip_info := fun _ => { cpu_nr_running := 0, cpu_up_time := 0 }

/-- Cpus 0 to 7 online, all records zero. -/
def all_eight : Cpus where
  online := fun c => decide (c < 8)
  ip_info := fun _ => { cpu_nr_running := 0, cpu_up_time := 0 }

/-- An inactive driver with nothing allocated. -/
def idle_driver : Driver where
  hima_hotplug_active := 0
  wq_allocated := false
  notif_registered := false
  work_queued := false
  cpus := reserved_only

/-- Tunables with both bounds at 0, a configuration that the setters reject. -/
def zero_bounds : Tunables :=
  { default_tunables with min_cpus_online := 0, max_cpus_online := 0 }

/-- Tunables with both bounds at `2 ^ 31`, a configuration that the setters reject
unless `NR_CPUS` is that large. -/
def wrapped_bounds : Tunables :=
  { default_tunables with min_cpus_online := 2 ^ 31, max_cpus_online := 2 ^ 31 }

/-- An environment like `sample_env 0 0 1000000`, except that cpu 4 carries load 600. -/
def busy_four_env : Env :=
  { sample_env 0 0 1000000 with avg_cpu_nr_running := fun c => if c = 4 then 600 else 0 }

/-- Only cpus 4 and 5 online (no reserved cpu), all records zero. -/
def four_and_five : Cpus where
  online := fun c => decide (c = 4 ∨ c = 5)
  ip_info := fun _ => { cpu_nr_running := 0, cpu_up_time := 0 }

/-! ## Decision engine: lemmas -/

theorem calculate_thread_stats_loop_ge (FSHIFT min_cpus_online max_cpus_online nr_fshift : Nat)
    (current_profile : Nat → Nat) (avg_nr_run : Nat) (nr_run : Nat) :
    nr_run ≤ calculate_thread_stats_loop FSHIFT min_cpus_online max_cpus_online nr_fshift
      current_profile avg_nr_run nr_run := by
  generalize h : max_cpus_online - nr_run = d
  induction d using Nat.strong_induction_on generalizing nr_run with
  | _ d ih =>
    rw [calculate_thread_stats_loop]
    split_ifs with hg hs
    · exact le_rfl
    · have := ih (max_cpus_online - (nr_run + 1)) (by omega) (nr_run + 1) rfl
      omega
    · exact le_rfl

theorem calculate_thread_stats_loop_le (FSHIFT min_cpus_online max_cpus_online nr_fshift : Nat)
    (current_profile : Nat → Nat) (avg_nr_run : Nat) (nr_run : Nat)
    (hn : nr_run ≤ max_cpus_online) :
    calculate_thread_stats_loop FSHIFT min_cpus_online max_cpus_online nr_fshift
      current_profile avg_nr_run nr_run ≤ max_cpus_online := by
  generalize h : max_cpus_online - nr_run = d
  induction d using Nat.strong_induction_on generalizing nr_run with
  | _ d ih =>
    rw [calculate_thread_stats_loop]
    split_ifs with hg hs
    · exact hn
    · exact ih (max_cpus_online - (nr_run + 1)) (by omega) (nr_run + 1) (by omega) rfl
    · exact hn

theorem calculate_thread_stats_loop_mono (FSHIFT min_cpus_online max_cpus_online nr_fshift : Nat)
    (current_profile : Nat → Nat) (s1 s2 : Nat) (hs : s1 ≤ s2) (nr_run : Nat) :
    calculate_thread_stats_loop FSHIFT min_cpus_online max_cpus_online nr_fshift
      current_profile s1 nr_run
    ≤ calculate_thread_stats_loop FSHIFT min_cpus_online max_cpus_online nr_fshift
      current_profile s2 nr_run := by
  generalize h : max_cpus_online - nr_run = d
  induction d using Nat.strong_induction_on generalizing nr_run with
  | _ d ih =>
    rw [calculate_thread_stats_loop]
    split_ifs with hg h1
    · exact calculate_thread_stats_loop_ge _ _ _ _ _ _ _
    · have h2 : ¬ (s2 ≤ shl_u32 (current_profile (nr_run - min_cpus_online)) (FSHIFT - nr_fshift)
          ∨ nr_run ≥ max_cpus_online) := by
        intro h2
        apply h1
        rcases h2 with h2 | h2
        · exact Or.inl (le_trans hs h2)
        · exact Or.inr h2
      conv_rhs => rw [calculate_thread_stats_loop]
      rw [if_pos hg, dif_neg h2]
      exact ih (max_cpus_online - (nr_run + 1)) (by omega) (nr_run + 1) rfl
    · conv_rhs => rw [calculate_thread_stats_loop]
      rw [if_neg hg]

/-- The result depends on the profile only through the entries at offsets below
`max_cpus_online - min_cpus_online`: the entry read at `nr_run = max_cpus_online`
is never decisive. -/
theorem calculate_thread_stats_loop_congr
    (FSHIFT min_cpus_online max_cpus_online nr_fshift : Nat)
    (p q : Nat → Nat) (avg_nr_run : Nat)
    (hpq : ∀ i, i < max_cpus_online - min_cpus_online → p i = q i)
    (nr_run : Nat) (hn : min_cpus_online ≤ nr_run) :
    calculate_thread_stats_loop FSHIFT min_cpus_online max_cpus_online nr_fshift p avg_nr_run
        nr_run
      = calculate_thread_stats_loop FSHIFT min_cpus_online max_cpus_online nr_fshift q
        avg_nr_run nr_run := by
  generalize h : max_cpus_online - nr_run = d
  induction d using Nat.strong_induction_on generalizing nr_run with
  | _ d ih =>
    rw [calculate_thread_stats_loop]
    conv_rhs => rw [calculate_thread_stats_loop]
    by_cases hmax : nr_run ≥ max_cpus_online
    · simp [hmax]
    · rw [hpq (nr_run - min_cpus_online) (by omega)]
      split_ifs
      · rfl
      · exact ih (max_cpus_online - (nr_run + 1)) (by omega) (nr_run + 1) (by omega) rfl
      · rfl

/-- When the selected table has at least `max_cpus_online - min_cpus_online`
entries, the result does not depend on the memory that lies behind the table. -/
theorem calculate_thread_stats_table_ptr
    (FSHIFT min_cpus_online max_cpus_online nr_fshift : Nat)
    (table : List Nat) (beyond1 beyond2 : Nat → Nat) (avg_nr_run : Nat)
    (hlen : max_cpus_online - min_cpus_online ≤ table.length) :
    calculate_thread_stats FSHIFT min_cpus_online max_cpus_online nr_fshift
        (table_ptr table beyond1) avg_nr_run
      = calculate_thread_stats FSHIFT min_cpus_online max_cpus_online nr_fshift
        (table_ptr table beyond2) avg_nr_run := by
  apply calculate_thread_stats_loop_congr _ _ _ _ _ _ _ _ _ le_rfl
  intro i hi
  have hlt : i < table.length := by omega
  simp [table_ptr, hlt]

/-! ## Decision engine: claims -/

/-- C1: for every configuration with `1 ≤ min_cpus_online ≤ max_cpus_online` and
`nr_fshift ≤ FSHIFT`, every profile pointer and every load sample,
`calculate_thread_stats` (a total function: its loop is accepted with the measure
`max_cpus_online - nr_run`) returns a value between `min_cpus_online` and
`max_cpus_online`. -/
theorem calculate_thread_stats_in_range
    (FSHIFT min_cpus_online max_cpus_online nr_fshift : Nat)
    (current_profile : Nat → Nat) (avg_nr_run : Nat)
    (_hmin : 1 ≤ min_cpus_online) (hle : min_cpus_online ≤ max_cpus_online)
    (_hshift : nr_fshift ≤ FSHIFT) :
    min_cpus_online ≤ calculate_thread_stats FSHIFT min_cpus_online max_cpus_online nr_fshift
        current_profile avg_nr_run
    ∧ calculate_thread_stats FSHIFT min_cpus_online max_cpus_online nr_fshift
        current_profile avg_nr_run ≤ max_cpus_online :=
  ⟨calculate_thread_stats_loop_ge _ _ _ _ _ _ _,
   calculate_thread_stats_loop_le _ _ _ _ _ _ _ hle⟩

theorem calculate_thread_stats_in_range_witness :
    (1 ≤ 4 ∧ 4 ≤ 8 ∧ 4 ≤ 11) ∧
    (4 ≤ calculate_thread_stats 11 4 8 4 (table_ptr nr_run_thresholds_balanced (fun _ => 0)) 5000
     ∧ calculate_thread_stats 11 4 8 4 (table_ptr nr_run_thresholds_balanced (fun _ => 0)) 5000
        ≤ 8) :=
  ⟨by decide, calculate_thread_stats_in_range 11 4 8 4 _ 5000 (by decide) (by decide) (by decide)⟩

/-- C3: threshold monotonicity. For a fixed configuration and a fixed profile
pointer (whatever its contents), a larger load sample never gives a smaller
target. -/
theorem calculate_thread_stats_monotone
    (FSHIFT min_cpus_online max_cpus_online nr_fshift : Nat)
    (current_profile : Nat → Nat) (s1 s2 : Nat) (hs : s1 ≤ s2) :
    calculate_thread_stats FSHIFT min_cpus_online max_cpus_online nr_fshift current_profile s1
    ≤ calculate_thread_stats FSHIFT min_cpus_online max_cpus_online nr_fshift current_profile s2 :=
  calculate_thread_stats_loop_mono _ _ _ _ _ _ _ hs _

theorem calculate_thread_stats_monotone_witness :
    (40 : Nat) ≤ 80 ∧
    calculate_thread_stats 11 4 8 11 (table_ptr nr_run_thresholds_balanced (fun _ => 0)) 40
    ≤ calculate_thread_stats 11 4 8 11 (table_ptr nr_run_thresholds_balanced (fun _ => 0)) 80 :=
  ⟨by decide, calculate_thread_stats_monotone 11 4 8 11 _ 40 80 (by decide)⟩

theorem loop_cond_ne_zero (nr_run min_cpus_online : Nat) (h2 : 2 ≤ min_cpus_online)
    (h32 : min_cpus_online < 2 ^ 32) : loop_cond nr_run min_cpus_online ≠ 0 := by
  unfold loop_cond sub_u32
  norm_num at h32 ⊢
  split_ifs <;> omega

theorem calculate_thread_stats_loop_least
    (FSHIFT min_cpus_online max_cpus_online nr_fshift : Nat)
    (current_profile : Nat → Nat) (avg_nr_run : Nat)
    (h2 : 2 ≤ min_cpus_online) (h32 : min_cpus_online < 2 ^ 32) (nr_run : Nat) :
    stops FSHIFT min_cpus_online max_cpus_online nr_fshift current_profile avg_nr_run
      (calculate_thread_stats_loop FSHIFT min_cpus_online max_cpus_online nr_fshift
        current_profile avg_nr_run nr_run)
    ∧ ∀ m, nr_run ≤ m →
        m < calculate_thread_stats_loop FSHIFT min_cpus_online max_cpus_online nr_fshift
          current_profile avg_nr_run nr_run →
        ¬ stops FSHIFT min_cpus_online max_cpus_online nr_fshift current_profile avg_nr_run m := by
  generalize h : max_cpus_online - nr_run = d
  induction d using Nat.strong_induction_on generalizing nr_run with
  | _ d ih =>
    rw [calculate_thread_stats_loop]
    rw [if_pos (loop_cond_ne_zero nr_run min_cpus_online h2 h32)]
    split_ifs with hs
    · exact ⟨hs, fun m h1 h2 => absurd h2 (by omega)⟩
    · have hn : ¬ nr_run ≥ max_cpus_online := fun hge => hs (Or.inr hge)
      obtain ⟨ih1, ih2⟩ := ih (max_cpus_online - (nr_run + 1)) (by omega) (nr_run + 1) rfl
      refine ⟨ih1, fun m h1 h2 => ?_⟩
      rcases Nat.eq_or_lt_of_le h1 with heq | hlt
      · subst heq
        exact hs
      · exact ih2 m hlt h2

/-- For `2 ≤ min_cpus_online` the loop condition never fails, and
`calculate_thread_stats` returns the least `n ≥ min_cpus_online` at which the
stopping test holds. -/
theorem calculate_thread_stats_least_of_two_le
    (FSHIFT min_cpus_online max_cpus_online nr_fshift : Nat)
    (current_profile : Nat → Nat) (avg_nr_run : Nat)
    (h2 : 2 ≤ min_cpus_online) (h32 : min_cpus_online < 2 ^ 32) :
    min_cpus_online ≤ calculate_thread_stats FSHIFT min_cpus_online max_cpus_online nr_fshift
        current_profile avg_nr_run
    ∧ stops FSHIFT min_cpus_online max_cpus_online nr_fshift current_profile avg_nr_run
        (calculate_thread_stats FSHIFT min_cpus_online max_cpus_online nr_fshift
          current_profile avg_nr_run)
    ∧ ∀ m, min_cpus_online ≤ m →
        m < calculate_thread_stats FSHIFT min_cpus_online max_cpus_online nr_fshift
          current_profile avg_nr_run →
        ¬ stops FSHIFT min_cpus_online max_cpus_online nr_fshift current_profile avg_nr_run m :=
  ⟨calculate_thread_stats_loop_ge _ _ _ _ _ _ _,
   calculate_thread_stats_loop_least _ _ _ _ _ _ h2 h32 _⟩

/-- The two worked examples with `min_cpus_online = 4`, `max_cpus_online = 8`, the
balanced table and `nr_fshift = FSHIFT`: sample 40 gives 6 and sample 80 gives 8. -/
theorem calculate_thread_stats_worked_examples (FSHIFT : Nat) (beyond : Nat → Nat) :
    calculate_thread_stats FSHIFT 4 8 FSHIFT (table_ptr nr_run_thresholds_balanced beyond) 40 = 6
    ∧ calculate_thread_stats FSHIFT 4 8 FSHIFT (table_ptr nr_run_thresholds_balanced beyond) 80
        = 8 := by
  constructor <;>
  simp [calculate_thread_stats, calculate_thread_stats_loop, loop_cond, sub_u32, shl_u32,
    threshold_size, nr_run_thresholds_balanced, table_ptr, UINT_MAX]

/-- C2 at `min_cpus_online = 1`: with `max_cpus_online = 8`, the balanced table,
`nr_fshift = FSHIFT = 11` and sample 40, the loop condition `(1 < 5) - 1` is zero, the
body never runs and the function returns 1, although the stopping test fails at
`n = 1` and at `n = 2` and first holds at `n = 3`. -/
theorem calculate_thread_stats_min_one_skips_loop :
    loop_cond 1 1 = 0
    ∧ calculate_thread_stats 11 1 8 11 (table_ptr nr_run_thresholds_balanced (fun _ => 0)) 40 = 1
    ∧ ¬ stops 11 1 8 11 (table_ptr nr_run_thresholds_balanced (fun _ => 0)) 40 1
    ∧ ¬ stops 11 1 8 11 (table_ptr nr_run_thresholds_balanced (fun _ => 0)) 40 2
    ∧ stops 11 1 8 11 (table_ptr nr_run_thresholds_balanced (fun _ => 0)) 40 3 := by
  refine ⟨?_, ?_, ?_, ?_, ?_⟩ <;>
  simp [calculate_thread_stats, calculate_thread_stats_loop, loop_cond, sub_u32, shl_u32,
    threshold_size, nr_run_thresholds_balanced, table_ptr, UINT_MAX, stops]

/-- C4 as stated fails: with `min_cpus_online = 4`, `max_cpus_online = 8`, the table
`nr_run_thresholds_disable`, `FSHIFT = 11`, `nr_fshift = 4` and the positive sample 1,
the result is 8 and not 4. -/
theorem calculate_thread_stats_disable_not_min :
    calculate_thread_stats 11 4 8 4 (table_ptr nr_run_thresholds_disable (fun _ => 0)) 1 = 8
    ∧ calculate_thread_stats 11 4 8 4 (table_ptr nr_run_thresholds_disable (fun _ => 0)) 1
        ≠ 4 := by
  constructor <;>
  simp [calculate_thread_stats, calculate_thread_stats_loop, loop_cond, sub_u32, shl_u32,
    threshold_size, nr_run_thresholds_balanced, nr_run_thresholds_disable, table_ptr, UINT_MAX]

/-- C4 amended: with `min_cpus_online = 4`, `max_cpus_online = 8` and the table
`nr_run_thresholds_disable` selected, `calculate_thread_stats` returns 8, the
maximum, for every positive load sample, whatever the scaling. -/
theorem calculate_thread_stats_disable_max (FSHIFT nr_fshift : Nat) (beyond : Nat → Nat)
    (avg_nr_run : Nat) (hpos : 0 < avg_nr_run) :
    calculate_thread_stats FSHIFT 4 8 nr_fshift (table_ptr nr_run_thresholds_disable beyond)
      avg_nr_run = 8 := by
  have h0 : ¬ avg_nr_run = 0 := by omega
  simp [calculate_thread_stats, calculate_thread_stats_loop, loop_cond, sub_u32, shl_u32,
    threshold_size, nr_run_thresholds_balanced, nr_run_thresholds_disable, table_ptr, h0]

theorem calculate_thread_stats_disable_max_witness :
    (0 : Nat) < 300 ∧
    calculate_thread_stats 11 4 8 4 (table_ptr nr_run_thresholds_disable (fun _ => 0)) 300 = 8 :=
  ⟨by decide, calculate_thread_stats_disable_max 11 4 (fun _ => 0) 300 (by decide)⟩

/-! ## Controller: lemmas on the state primitives -/

theorem num_online_cpus_set_false (n k : Nat) (f : Nat → Bool) :
    num_online_cpus n (fun c => if c = k then false else f c)
      = num_online_cpus n f - (if k < n ∧ f k = true then 1 else 0) := by
  induction n with
  | zero => simp [num_online_cpus]
  | succ n ih =>
    simp only [num_online_cpus, ih]
    by_cases hk : n = k
    · subst hk
      by_cases hf : f n = true <;> simp [hf]
    · have hk2 : ¬ k = n := fun h => hk h.symm
      by_cases hlt : k < n
      · have h1 : k < n + 1 := by omega
        by_cases hf : f k = true
        · have hpos : 1 ≤ num_online_cpus n f := by
            clear ih
            induction n with
            | zero => omega
            | succ m ihm =>
              simp only [num_online_cpus]
              by_cases hkm : k = m
              · subst hkm
                simp [hf]
              · have := ihm (fun h => hkm h.symm) (by omega) (by omega)
                omega
          simp only [hk, hlt, hf, h1, if_false, if_true, and_self]
          split_ifs <;> omega
        · simp [hk, hlt, hf, h1]
      · have h1 : ¬ k < n + 1 := by omega
        simp [hk, hlt, h1]

theorem num_online_cpus_set_true (n k : Nat) (f : Nat → Bool) :
    num_online_cpus n (fun c => if c = k then true else f c)
      = num_online_cpus n f + (if k < n ∧ f k = false then 1 else 0) := by
  induction n with
  | zero => simp [num_online_cpus]
  | succ n ih =>
    simp only [num_online_cpus, ih]
    by_cases hk : n = k
    · subst hk
      by_cases hf : f n = true <;> simp [hf]
    · by_cases hlt : k < n
      · have h1 : k < n + 1 := by omega
        by_cases hf : f k = true
        · simp [hk, hlt, hf, h1]
        · simp only [hk, hlt, hf, h1, if_false, if_true, true_and]
          split_ifs <;> omega
      · have h1 : ¬ k < n + 1 := by omega
        simp [hk, hlt, h1]

theorem num_online_cpus_pos (n k : Nat) (f : Nat → Bool) (hk : k < n) (hf : f k = true) :
    1 ≤ num_online_cpus n f := by
  induction n with
  | zero => omega
  | succ m ihm =>
    simp only [num_online_cpus]
    by_cases hkm : k = m
    · subst hkm
      simp [hf]
    · have := ihm (by omega)
      omega

theorem num_online_cpus_congr (n : Nat) (f g : Nat → Bool) (h : ∀ c, c < n → f c = g c) :
    num_online_cpus n f = num_online_cpus n g := by
  induction n with
  | zero => rfl
  | succ m ihm =>
    simp only [num_online_cpus]
    rw [ihm (fun c hc => h c (by omega)), h m (by omega)]

theorem foldl_load_online (avg : Nat → Nat) (l : List Nat) (s : Cpus) :
    (l.foldl (fun s cpu => if s.online cpu then set_cpu_nr_running cpu (avg cpu) s else s) s).online
      = s.online := by
  induction l generalizing s with
  | nil => rfl
  | cons a l ih =>
    simp only [List.foldl_cons]
    rw [ih]
    split_ifs <;> rfl

theorem foldl_load_ip_info (avg : Nat → Nat) (l : List Nat) (s : Cpus) (c : Nat) :
    (l.foldl (fun s cpu => if s.online cpu then set_cpu_nr_running cpu (avg cpu) s else s)
        s).ip_info c
      = if c ∈ l ∧ s.online c = true then { s.ip_info c with cpu_nr_running := avg c }
        else s.ip_info c := by
  induction l generalizing s with
  | nil => simp
  | cons a l ih =>
    simp only [List.foldl_cons]
    rw [ih]
    by_cases ha : s.online a = true
    · simp only [ha, if_true]
      by_cases hca : c = a
      · subst hca
        simp [set_cpu_nr_running, ha]
      · by_cases hcl : c ∈ l <;> simp [set_cpu_nr_running, hca, hcl]
    · simp only [ha]
      by_cases hca : c = a
      · subst hca
        simp [ha]
      · simp [hca]

theorem foldl_clear_online (l : List Nat) (s : Cpus) :
    (l.foldl (fun s cpu => if s.online cpu then s else set_cpu_up_time cpu 0 s) s).online
      = s.online := by
  induction l generalizing s with
  | nil => rfl
  | cons a l ih =>
    simp only [List.foldl_cons]
    rw [ih]
    split_ifs <;> rfl

theorem foldl_clear_ip_info (l : List Nat) (s : Cpus) (c : Nat) :
    (l.foldl (fun s cpu => if s.online cpu then s else set_cpu_up_time cpu 0 s) s).ip_info c
      = if c ∈ l ∧ s.online c = false then { s.ip_info c with cpu_up_time := 0 }
        else s.ip_info c := by
  induction l generalizing s with
  | nil => simp
  | cons a l ih =>
    simp only [List.foldl_cons]
    rw [ih]
    by_cases ha : s.online a = true
    · simp only [ha, if_true]
      by_cases hca : c = a
      · subst hca
        simp [ha]
      · simp [hca]
    · have ha2 : s.online a = false := by simpa using ha
      simp only [ha2]
      by_cases hca : c = a
      · subst hca
        simp [set_cpu_up_time, ha2]
      · by_cases hcl : c ∈ l <;> simp [set_cpu_up_time, hca, hcl]

theorem update_per_cpu_stat_online (e : Env) (s : Cpus) :
    (update_per_cpu_stat e s).online = s.online := by
  simp only [update_per_cpu_stat]
  rw [foldl_clear_online, foldl_load_online]

/-- Pointwise description of `update_per_cpu_stat`. -/
theorem update_per_cpu_stat_ip_info (e : Env) (s : Cpus) (c : Nat) :
    (update_per_cpu_stat e s).ip_info c
      = if c < e.nr_cpu_ids then
          if s.online c = true then { s.ip_info c with cpu_nr_running := e.avg_cpu_nr_running c }
          else { s.ip_info c with cpu_up_time := 0 }
        else s.ip_info c := by
  simp only [update_per_cpu_stat]
  rw [foldl_clear_ip_info, foldl_load_online, foldl_load_ip_info]
  by_cases hc : c < e.nr_cpu_ids
  · by_cases ho : s.online c = true
    · simp [hc, ho]
    · have ho2 : s.online c = false := by simpa using ho
      simp [hc, ho2]
  · simp [hc]

/-! ## Controller: the power-down loop -/

theorem power_down_loop_ip_info (t : Tunables) (e : Env) (target : Nat) (l : List Nat)
    (s : Cpus) : (power_down_loop t e target l s).1.ip_info = s.ip_info := by
  induction l generalizing s with
  | nil => rfl
  | cons cpu rest ih =>
    simp only [power_down_loop]
    split_ifs
    · exact ih s
    · rfl
    · exact ih (cpu_down cpu s)
    · rfl
    · exact ih s
    · exact ih s

theorem power_down_loop_mem (t : Tunables) (e : Env) (target : Nat) (l : List Nat)
    (s : Cpus) (c : Nat) (h : Cmd.cpu_down c ∈ (power_down_loop t e target l s).2) :
    c ∈ l ∧ s.online c = true
      ∧ ¬ (c ≤ 3 ∨ sub_u64 (e.ktime_ms c) (s.ip_info c).cpu_up_time < t.min_cpu_up_time)
      ∧ ∃ n, (s.ip_info c).cpu_nr_running
          < int_to_ulong (l_nr_threshold t.cpu_nr_run_threshold n) := by
  induction l generalizing s with
  | nil => simp [power_down_loop] at h
  | cons cpu rest ih =>
    simp only [power_down_loop] at h
    split_ifs at h with ho hskip hload hbrk hbrk2
    · obtain ⟨h1, h2⟩ := ih s h
      exact ⟨List.mem_cons_of_mem _ h1, h2⟩
    · simp only [List.mem_singleton, Cmd.cpu_down.injEq] at h
      subst h
      exact ⟨List.mem_cons_self _ _, ho, hskip, _, hload⟩
    · simp only [List.mem_cons, Cmd.cpu_down.injEq] at h
      rcases h with h | h
      · subst h
        exact ⟨List.mem_cons_self _ _, ho, hskip, _, hload⟩
      · obtain ⟨h1, h2, h3⟩ := ih (cpu_down cpu s) h
        refine ⟨List.mem_cons_of_mem _ h1, ?_, h3⟩
        simp only [cpu_down] at h2
        split_ifs at h2
        exact h2
    · simp at h
    · obtain ⟨h1, h2⟩ := ih s h
      exact ⟨List.mem_cons_of_mem _ h1, h2⟩
    · obtain ⟨h1, h2⟩ := ih s h
      exact ⟨List.mem_cons_of_mem _ h1, h2⟩

theorem power_down_loop_no_up (t : Tunables) (e : Env) (target : Nat) (l : List Nat)
    (s : Cpus) (c : Nat) : Cmd.cpu_up c ∉ (power_down_loop t e target l s).2 := by
  induction l generalizing s with
  | nil => simp [power_down_loop]
  | cons cpu rest ih =>
    simp only [power_down_loop]
    split_ifs
    · exact ih s
    · simp
    · simp only [List.mem_cons, not_or]
      exact ⟨by simp, ih (cpu_down cpu s)⟩
    · simp
    · exact ih s
    · exact ih s

theorem power_down_loop_online (t : Tunables) (e : Env) (target : Nat) (l : List Nat)
    (s : Cpus) (c : Nat) :
    (power_down_loop t e target l s).1.online c = true
      ↔ s.online c = true ∧ Cmd.cpu_down c ∉ (power_down_loop t e target l s).2 := by
  induction l generalizing s with
  | nil => simp [power_down_loop]
  | cons cpu rest ih =>
    simp only [power_down_loop]
    split_ifs with ho hskip hload hbrk hbrk2
    · exact ih s
    · by_cases hc : c = cpu
      · subst hc
        simp [cpu_down]
      · simp [cpu_down, hc]
    · simp only [List.mem_cons, Cmd.cpu_down.injEq, not_or]
      rw [ih (cpu_down cpu s)]
      by_cases hc : c = cpu
      · subst hc
        simp [cpu_down]
      · simp [cpu_down, hc]
    · simp
    · exact ih s
    · exact ih s

/-! ## Controller: the power-up loop -/

theorem power_up_loop_no_down (e : Env) (target : Nat) (l : List Nat) (s : Cpus) (c : Nat) :
    Cmd.cpu_down c ∉ (power_up_loop e target l s).2 := by
  induction l generalizing s with
  | nil => simp [power_up_loop]
  | cons cpu rest ih =>
    simp only [power_up_loop]
    split_ifs
    · exact ih s
    · exact ih s
    · simp
    · simp only [List.mem_cons, not_or]
      exact ⟨by simp, ih _⟩

theorem power_up_loop_mem (e : Env) (target : Nat) (l : List Nat) (s : Cpus) (c : Nat)
    (h : Cmd.cpu_up c ∈ (power_up_loop e target l s).2) :
    c ∈ l ∧ s.online c = false ∧ 3 < c := by
  induction l generalizing s with
  | nil => simp [power_up_loop] at h
  | cons cpu rest ih =>
    simp only [power_up_loop] at h
    split_ifs at h with ho hres hbrk
    · obtain ⟨h1, h2⟩ := ih s h
      exact ⟨List.mem_cons_of_mem _ h1, h2⟩
    · obtain ⟨h1, h2⟩ := ih s h
      exact ⟨List.mem_cons_of_mem _ h1, h2⟩
    · simp only [List.mem_singleton, Cmd.cpu_up.injEq] at h
      subst h
      exact ⟨List.mem_cons_self _ _, by simpa using ho, by omega⟩
    · simp only [List.mem_cons, Cmd.cpu_up.injEq] at h
      rcases h with h | h
      · subst h
        exact ⟨List.mem_cons_self _ _, by simpa using ho, by omega⟩
      · obtain ⟨h1, h2, h3⟩ := ih _ h
        refine ⟨List.mem_cons_of_mem _ h1, ?_, h3⟩
        simp only [set_cpu_up_time, cpu_up] at h2
        split_ifs at h2
        exact h2

theorem power_up_loop_online (e : Env) (target : Nat) (l : List Nat) (s : Cpus) (c : Nat) :
    (power_up_loop e target l s).1.online c = true
      ↔ s.online c = true ∨ Cmd.cpu_up c ∈ (power_up_loop e target l s).2 := by
  induction l generalizing s with
  | nil => simp [power_up_loop]
  | cons cpu rest ih =>
    simp only [power_up_loop]
    split_ifs with ho hres hbrk
    · exact ih s
    · exact ih s
    · by_cases hc : c = cpu
      · subst hc
        simp [set_cpu_up_time, cpu_up]
      · simp [set_cpu_up_time, cpu_up, hc]
    · simp only [List.mem_cons, Cmd.cpu_up.injEq]
      rw [ih _]
      by_cases hc : c = cpu
      · subst hc
        simp [set_cpu_up_time, cpu_up]
      · simp [set_cpu_up_time, cpu_up, hc]

theorem power_up_loop_ip_info_of_not_mem (e : Env) (target : Nat) (l : List Nat) (s : Cpus)
    (c : Nat) (h : Cmd.cpu_up c ∉ (power_up_loop e target l s).2) :
    (power_up_loop e target l s).1.ip_info c = s.ip_info c := by
  induction l generalizing s with
  | nil => rfl
  | cons cpu rest ih =>
    simp only [power_up_loop] at h ⊢
    split_ifs at h ⊢ with ho hres hbrk
    · exact ih s h
    · exact ih s h
    · simp only [List.mem_singleton, Cmd.cpu_up.injEq] at h
      simp [set_cpu_up_time, cpu_up, h]
    · simp only [List.mem_cons, Cmd.cpu_up.injEq, not_or] at h
      rw [ih _ h.2]
      simp [set_cpu_up_time, cpu_up, h.1]

theorem power_up_loop_ip_info_of_mem (e : Env) (target : Nat) (l : List Nat) (s : Cpus)
    (c : Nat) (h : Cmd.cpu_up c ∈ (power_up_loop e target l s).2) :
    (power_up_loop e target l s).1.ip_info c
      = { s.ip_info c with cpu_up_time := e.ktime_ms c } := by
  induction l generalizing s with
  | nil => simp [power_up_loop] at h
  | cons cpu rest ih =>
    simp only [power_up_loop] at h ⊢
    split_ifs at h ⊢ with ho hres hbrk
    · exact ih s h
    · exact ih s h
    · simp only [List.mem_singleton, Cmd.cpu_up.injEq] at h
      subst h
      simp [set_cpu_up_time, cpu_up]
    · simp only [List.mem_cons, Cmd.cpu_up.injEq] at h
      rcases h with h | h
      · subst h
        rw [power_up_loop_ip_info_of_not_mem]
        · simp [set_cpu_up_time, cpu_up]
        · intro hm
          have := (power_up_loop_mem e target rest _ c hm).2.1
          simp [set_cpu_up_time, cpu_up] at this
      · rw [ih _ h]
        have hne : c ≠ cpu := by
          intro hc
          subst hc
          have := (power_up_loop_mem e target rest _ c h).2.1
          simp [set_cpu_up_time, cpu_up] at this
        simp [set_cpu_up_time, cpu_up, hne]

/-! ## The resume loop -/

theorem cpu_up_all_no_down (l : List Nat) (s : Cpus) (c : Nat) :
    Cmd.cpu_down c ∉ (cpu_up_all l s).2 := by
  induction l generalizing s with
  | nil => simp [cpu_up_all]
  | cons cpu rest ih =>
    simp only [cpu_up_all]
    split_ifs
    · exact ih s
    · simp only [List.mem_cons, not_or]
      exact ⟨by simp, ih _⟩

theorem cpu_up_all_ip_info (l : List Nat) (s : Cpus) :
    (cpu_up_all l s).1.ip_info = s.ip_info := by
  induction l generalizing s with
  | nil => rfl
  | cons cpu rest ih =>
    simp only [cpu_up_all]
    split_ifs
    · exact ih s
    · exact ih (cpu_up cpu s)

theorem cpu_up_all_online_mono (l : List Nat) (s : Cpus) (c : Nat) (h : s.online c = true) :
    (cpu_up_all l s).1.online c = true := by
  induction l generalizing s with
  | nil => exact h
  | cons cpu rest ih =>
    simp only [cpu_up_all]
    split_ifs
    · exact ih s h
    · apply ih (cpu_up cpu s)
      simp only [cpu_up]
      split_ifs <;> simp [h]

theorem cpu_up_all_online (l : List Nat) (s : Cpus) (c : Nat) (h : c ∈ l) :
    (cpu_up_all l s).1.online c = true := by
  induction l generalizing s with
  | nil => simp at h
  | cons cpu rest ih =>
    simp only [cpu_up_all]
    by_cases hc : c = cpu
    · subst hc
      split_ifs with ho
      · exact cpu_up_all_online_mono rest s c ho
      · exact cpu_up_all_online_mono rest (cpu_up c s) c (by simp [cpu_up])
    · have hr : c ∈ rest := by
        rcases List.mem_cons.mp h with h | h
        · exact absurd h hc
        · exact h
      split_ifs
      · exact ih s hr
      · exact ih (cpu_up cpu s) hr

/-! ## Controller: one pass -/

theorem sub_u64_of_le (now stamp : Nat) (h1 : stamp ≤ now) (h2 : now < 2 ^ 64) :
    sub_u64 now stamp = now - stamp := by
  unfold sub_u64
  norm_num at h2 ⊢
  omega

theorem cpu_up_down_work_down_mem (t : Tunables) (e : Env) (s : Cpus) (c : Nat)
    (h : Cmd.cpu_down c ∈ (cpu_up_down_work t e s).2) :
    3 < c ∧ c < e.nr_cpu_ids ∧ s.online c = true
      ∧ ¬ sub_u64 (e.ktime_ms c) (s.ip_info c).cpu_up_time < t.min_cpu_up_time := by
  simp only [cpu_up_down_work] at h
  split_ifs at h with heq hlt
  · simp at h
  · obtain ⟨h1, h2, h3, _⟩ := power_down_loop_mem t e _ _ _ c h
    have hc : c < e.nr_cpu_ids := List.mem_range.mp h1
    rw [update_per_cpu_stat_online] at h2
    rw [update_per_cpu_stat_ip_info, if_pos hc, if_pos h2] at h3
    simp only [not_or] at h3
    exact ⟨by omega, hc, h2, h3.2⟩
  · exact absurd h (power_up_loop_no_down e _ _ _ c)

theorem cpu_up_down_work_up_mem (t : Tunables) (e : Env) (s : Cpus) (c : Nat)
    (h : Cmd.cpu_up c ∈ (cpu_up_down_work t e s).2) :
    3 < c ∧ c < e.nr_cpu_ids ∧ s.online c = false := by
  simp only [cpu_up_down_work] at h
  split_ifs at h with heq hlt
  · simp at h
  · exact absurd h (power_down_loop_no_up t e _ _ _ c)
  · obtain ⟨h1, h2, h3⟩ := power_up_loop_mem e _ _ _ c h
    rw [update_per_cpu_stat_online] at h2
    exact ⟨h3, List.mem_range.mp h1, h2⟩

theorem cpu_up_down_work_online (t : Tunables) (e : Env) (s : Cpus) (c : Nat) :
    (cpu_up_down_work t e s).1.online c = true
      ↔ (s.online c = true ∧ Cmd.cpu_down c ∉ (cpu_up_down_work t e s).2)
        ∨ Cmd.cpu_up c ∈ (cpu_up_down_work t e s).2 := by
  simp only [cpu_up_down_work]
  split_ifs with heq hlt
  · simp
  · rw [power_down_loop_online, update_per_cpu_stat_online]
    have := power_down_loop_no_up t e
      (int_to_uint (uint_to_int
        (calculate_thread_stats e.FSHIFT t.min_cpus_online t.max_cpus_online t.nr_fshift
          e.current_profile e.avg_nr_run))) (List.range e.nr_cpu_ids)
      (update_per_cpu_stat e s) c
    tauto
  · rw [power_up_loop_online, update_per_cpu_stat_online]
    have := power_up_loop_no_down e
      (int_to_uint (uint_to_int
        (calculate_thread_stats e.FSHIFT t.min_cpus_online t.max_cpus_online t.nr_fshift
          e.current_profile e.avg_nr_run))) (List.range e.nr_cpu_ids)
      (update_per_cpu_stat e s) c
    tauto

theorem cpu_up_down_work_stamp (t : Tunables) (e : Env) (s : Cpus) (c : Nat)
    (h : Cmd.cpu_up c ∈ (cpu_up_down_work t e s).2) :
    ((cpu_up_down_work t e s).1.ip_info c).cpu_up_time = e.ktime_ms c := by
  simp only [cpu_up_down_work] at h ⊢
  split_ifs at h ⊢ with heq hlt
  · simp at h
  · exact absurd h (power_down_loop_no_up t e _ _ _ c)
  · rw [power_up_loop_ip_info_of_mem e _ _ _ c h]

theorem cpu_up_down_work_keeps_stamp (t : Tunables) (e : Env) (s : Cpus) (c : Nat)
    (h : s.online c = true) :
    ((cpu_up_down_work t e s).1.ip_info c).cpu_up_time = (s.ip_info c).cpu_up_time := by
  have hupd : ((update_per_cpu_stat e s).ip_info c).cpu_up_time = (s.ip_info c).cpu_up_time := by
    rw [update_per_cpu_stat_ip_info]
    split_ifs <;> rfl
  simp only [cpu_up_down_work]
  split_ifs with heq hlt
  · rfl
  · rw [power_down_loop_ip_info]
    exact hupd
  · rw [power_up_loop_ip_info_of_not_mem]
    · exact hupd
    · intro hm
      have := (power_up_loop_mem e _ _ _ c hm).2.1
      rw [update_per_cpu_stat_online, h] at this
      exact absurd this (by simp)

/-- C5: one pass of `cpu_up_down_work` issues no `cpu_down` for a cpu numbered below
4, whatever the online mask, the per-cpu records, the readings and the target; a
reserved cpu that was online before the pass is online after it. -/
theorem cpu_up_down_work_spares_reserved (t : Tunables) (e : Env) (s : Cpus) (cpu : Nat)
    (hres : cpu < 4) :
    Cmd.cpu_down cpu ∉ (cpu_up_down_work t e s).2
      ∧ (s.online cpu = true → (cpu_up_down_work t e s).1.online cpu = true) := by
  have hno : Cmd.cpu_down cpu ∉ (cpu_up_down_work t e s).2 := by
    intro h
    have := (cpu_up_down_work_down_mem t e s cpu h).1
    omega
  exact ⟨hno, fun ho => (cpu_up_down_work_online t e s cpu).mpr (Or.inl ⟨ho, hno⟩)⟩

theorem cpu_up_down_work_spares_reserved_witness :
    (2 < 4) ∧
    (Cmd.cpu_down 2 ∉ (cpu_up_down_work default_tunables (sample_env 0 0 1000000) all_eight).2
      ∧ (all_eight.online 2 = true →
          (cpu_up_down_work default_tunables (sample_env 0 0 1000000) all_eight).1.online 2
            = true)) :=
  ⟨by decide,
   cpu_up_down_work_spares_reserved default_tunables (sample_env 0 0 1000000) all_eight 2
     (by decide)⟩

/-! ## Hysteresis -/

theorem event_keeps_stamped_cpu (m stamp cpu : Nat) (ev : Event) (s : Cpus)
    (hev : ∀ t2 e2, ev = Event.pass t2 e2 →
      t2.min_cpu_up_time = m ∧ stamp ≤ e2.ktime_ms cpu ∧ e2.ktime_ms cpu < stamp + m
        ∧ e2.ktime_ms cpu < 2 ^ 64)
    (hon : s.online cpu = true) (hst : (s.ip_info cpu).cpu_up_time = stamp) :
    Cmd.cpu_down cpu ∉ (ev.apply s).2
      ∧ (ev.apply s).1.online cpu = true
      ∧ ((ev.apply s).1.ip_info cpu).cpu_up_time = stamp := by
  cases ev with
  | pass t2 e2 =>
    obtain ⟨hm, h1, h2, h3⟩ := hev t2 e2 rfl
    have hno : Cmd.cpu_down cpu ∉ (cpu_up_down_work t2 e2 s).2 := by
      intro h
      have h4 := (cpu_up_down_work_down_mem t2 e2 s cpu h).2.2.2
      rw [hst, sub_u64_of_le _ _ h1 h3, hm] at h4
      omega
    refine ⟨hno, ?_, ?_⟩
    · exact (cpu_up_down_work_online t2 e2 s cpu).mpr (Or.inl ⟨hon, hno⟩)
    · simp only [Event.apply]
      rw [cpu_up_down_work_keeps_stamp t2 e2 s cpu hon, hst]
  | resume n =>
    refine ⟨cpu_up_all_no_down _ _ _, cpu_up_all_online_mono _ _ _ hon, ?_⟩
    simp only [Event.apply, hima_hotplug_resume]
    rw [cpu_up_all_ip_info, hst]

theorem run_events_keeps_stamped_cpu (m stamp cpu : Nat) (evs : List Event) (s : Cpus)
    (hevs : ∀ t2 e2, Event.pass t2 e2 ∈ evs →
      t2.min_cpu_up_time = m ∧ stamp ≤ e2.ktime_ms cpu ∧ e2.ktime_ms cpu < stamp + m
        ∧ e2.ktime_ms cpu < 2 ^ 64)
    (hon : s.online cpu = true) (hst : (s.ip_info cpu).cpu_up_time = stamp) :
    Cmd.cpu_down cpu ∉ (run_events evs s).2 := by
  induction evs generalizing s with
  | nil => simp [run_events]
  | cons ev rest ih =>
    obtain ⟨h1, h2, h3⟩ := event_keeps_stamped_cpu m stamp cpu ev s
      (fun t2 e2 heq => hevs t2 e2 (by rw [heq]; exact List.mem_cons_self _ _)) hon hst
    simp only [run_events, List.mem_append, not_or]
    exact ⟨h1, ih _ (fun t2 e2 hmem => hevs t2 e2 (List.mem_cons_of_mem _ hmem)) h2 h3⟩

/-- C6 as stated fails for a cpu brought online by the resume notification: with cpus
0 to 3 online and all records zero, `hima_hotplug_resume` brings cpu 4 online
without writing its `cpu_up_time`, and a pass of `cpu_up_down_work` at the very same
clock reading 1000000 (target 4, every load 0) issues `cpu_down(4)`. -/
theorem resume_power_up_not_protected :
    reserved_only.online 4 = false
    ∧ (hima_hotplug_resume 8 reserved_only).1.online 4 = true
    ∧ ((hima_hotplug_resume 8 reserved_only).1.ip_info 4).cpu_up_time = 0
    ∧ Cmd.cpu_down 4 ∈ (cpu_up_down_work default_tunables (sample_env 0 0 1000000)
        (hima_hotplug_resume 8 reserved_only).1).2 := by
  refine ⟨by simp [reserved_only], ?_, ?_, ?_⟩ <;>
  simp [cpu_up_down_work, uint_to_int, int_to_uint, default_tunables, sample_env, reserved_only, hima_hotplug_resume,
    cpu_up_all, cpu_up,
    calculate_thread_stats, calculate_thread_stats_loop, loop_cond, sub_u32, shl_u32,
    threshold_size, nr_run_thresholds_balanced, table_ptr, UINT_MAX, num_online_cpus,
    update_per_cpu_stat, List.range_succ, power_down_loop, set_cpu_nr_running, set_cpu_up_time,
    sub_u64, int_to_ulong, l_nr_threshold, CPU_NR_THRESHOLD, cpu_down]

/-- C6 amended: a cpu that a pass of `cpu_up_down_work` powers up is stamped with the
clock reading `T` of that moment, and from then on no sequence of resume
notifications and passes whose clock reading for that cpu lies in
`T ≤ now < T + min_cpu_up_time` issues `cpu_down` for it. -/
theorem hysteresis_after_controller_power_up (t : Tunables) (e : Env) (s : Cpus) (cpu : Nat)
    (evs : List Event)
    (hup : Cmd.cpu_up cpu ∈ (cpu_up_down_work t e s).2)
    (hevs : ∀ t2 e2, Event.pass t2 e2 ∈ evs →
      t2.min_cpu_up_time = t.min_cpu_up_time ∧ e.ktime_ms cpu ≤ e2.ktime_ms cpu
        ∧ e2.ktime_ms cpu < e.ktime_ms cpu + t.min_cpu_up_time ∧ e2.ktime_ms cpu < 2 ^ 64) :
    ((cpu_up_down_work t e s).1.ip_info cpu).cpu_up_time = e.ktime_ms cpu
    ∧ Cmd.cpu_down cpu ∉ (run_events evs (cpu_up_down_work t e s).1).2 :=
  ⟨cpu_up_down_work_stamp t e s cpu hup,
   run_events_keeps_stamped_cpu t.min_cpu_up_time (e.ktime_ms cpu) cpu evs _ hevs
    ((cpu_up_down_work_online t e s cpu).mpr (Or.inr hup))
    (cpu_up_down_work_stamp t e s cpu hup)⟩

theorem hysteresis_after_controller_power_up_witness :
    Cmd.cpu_up 4 ∈ (cpu_up_down_work default_tunables (sample_env 100000 0 1000000)
      reserved_only).2
    ∧ ((cpu_up_down_work default_tunables (sample_env 100000 0 1000000)
        reserved_only).1.ip_info 4).cpu_up_time = 1000000
    ∧ Cmd.cpu_down 4 ∉ (run_events
        [Event.resume 8, Event.pass default_tunables (sample_env 0 0 1000300)]
        (cpu_up_down_work default_tunables (sample_env 100000 0 1000000) reserved_only).1).2 := by
  have hup : Cmd.cpu_up 4 ∈ (cpu_up_down_work default_tunables (sample_env 100000 0 1000000)
      reserved_only).2 := by
    simp [cpu_up_down_work, uint_to_int, int_to_uint, default_tunables, sample_env, reserved_only,
      calculate_thread_stats, calculate_thread_stats_loop, loop_cond, sub_u32, shl_u32,
      threshold_size, nr_run_thresholds_balanced, table_ptr, UINT_MAX, num_online_cpus,
      update_per_cpu_stat, List.range_succ, power_up_loop, set_cpu_nr_running, set_cpu_up_time,
      cpu_up]
  have h := hysteresis_after_controller_power_up default_tunables
    (sample_env 100000 0 1000000) reserved_only 4
    [Event.resume 8, Event.pass default_tunables (sample_env 0 0 1000300)] hup
    (by
      intro t2 e2 hmem
      simp only [List.mem_cons, List.mem_singleton, Event.pass.injEq, List.mem_nil_iff,
        or_false] at hmem
      rcases hmem with h | ⟨rfl, rfl⟩
      · cases h
      · simp [default_tunables, sample_env])
  exact ⟨hup, h⟩

/-! ## The power-down threshold -/

theorem l_nr_threshold_of_two_le (g n : Nat) (hn : 2 ≤ n) :
    l_nr_threshold g n = g % 2 ^ 32 := by
  unfold l_nr_threshold shl_u32
  rw [Nat.div_eq_of_lt (by omega)]
  simp

/-- C10 at `cpu_nr_run_threshold = 525` with eight cpus online: the value assigned to
`l_nr_threshold` is 525 while `(525 * 2) / 8` is 131, and in the pass with target 4
and load 300 on every cpu the code issues `cpu_down(4)` although 300 is not below
131. -/
theorem l_nr_threshold_not_divided :
    l_nr_threshold 525 8 = 525
    ∧ (525 * 2) / 8 = 131
    ∧ ¬ (300 < (525 * 2) / 8)
    ∧ Cmd.cpu_down 4 ∈ (cpu_up_down_work default_tunables (sample_env 0 300 1000000)
        all_eight).2 := by
  refine ⟨by simp [l_nr_threshold, shl_u32], by norm_num, by norm_num, ?_⟩
  simp [cpu_up_down_work, uint_to_int, int_to_uint, default_tunables, sample_env, all_eight,
    calculate_thread_stats, calculate_thread_stats_loop, loop_cond, sub_u32, shl_u32,
    threshold_size, nr_run_thresholds_balanced, table_ptr, UINT_MAX, num_online_cpus,
    update_per_cpu_stat, List.range_succ, power_down_loop, set_cpu_nr_running, set_cpu_up_time,
    sub_u64, int_to_ulong, l_nr_threshold, CPU_NR_THRESHOLD, cpu_down]

/-! ## Idempotence of a pass -/

theorem l_nr_threshold_eq_two (g n : Nat) (hn : 2 ≤ n) :
    l_nr_threshold g n = l_nr_threshold g 2 := by
  rw [l_nr_threshold_of_two_le g n hn, l_nr_threshold_of_two_le g 2 le_rfl]

theorem num_online_cpus_two_le (n c1 c2 : Nat) (f : Nat → Bool) (h1 : c1 < n) (h2 : c2 < n)
    (hne : c1 ≠ c2) (hf1 : f c1 = true) (hf2 : f c2 = true) : 2 ≤ num_online_cpus n f := by
  have hcount := num_online_cpus_set_false n c1 f
  rw [if_pos ⟨h1, hf1⟩] at hcount
  have hne2 : ¬ c2 = c1 := fun h => hne h.symm
  have hpos := num_online_cpus_pos n c2 (fun c => if c = c1 then false else f c) h2
    (by simp [hf2, hne2])
  have hpos1 := num_online_cpus_pos n c1 f h1 hf1
  omega

theorem guarded_two_le (e : Env) (target : Nat) (s : Cpus) (cpu : Nat)
    (hg : guarded e target s) (hn : target < num_online_cpus e.nr_cpu_ids s.online)
    (ho : s.online cpu = true) (hc : cpu < e.nr_cpu_ids) (h3 : ¬ cpu ≤ 3) :
    2 ≤ num_online_cpus e.nr_cpu_ids s.online := by
  rcases hg with h | ⟨c, hc4, hcn, hco⟩
  · omega
  · exact num_online_cpus_two_le _ c cpu _ hcn hc (by omega) hco ho

theorem guarded_cpu_down (e : Env) (target : Nat) (s : Cpus) (cpu : Nat)
    (hg : guarded e target s) (h3 : ¬ cpu ≤ 3) : guarded e target (cpu_down cpu s) := by
  rcases hg with h | ⟨c, hc4, hcn, hco⟩
  · exact Or.inl h
  · refine Or.inr ⟨c, hc4, hcn, ?_⟩
    have hne : c ≠ cpu := by omega
    simp [cpu_down, hne, hco]

theorem power_down_loop_of_settled (t : Tunables) (e : Env) (target : Nat) (l : List Nat)
    (s : Cpus) (hg : guarded e target s)
    (hn : target < num_online_cpus e.nr_cpu_ids s.online)
    (hl : ∀ c ∈ l, c < e.nr_cpu_ids)
    (hall : ∀ c ∈ l, settled t e s c) :
    power_down_loop t e target l s = (s, []) := by
  induction l with
  | nil => rfl
  | cons cpu rest ih =>
    have hrest : ∀ c ∈ rest, settled t e s c := fun c hc => hall c (List.mem_cons_of_mem _ hc)
    have hlrest : ∀ c ∈ rest, c < e.nr_cpu_ids := fun c hc => hl c (List.mem_cons_of_mem _ hc)
    have hcpu := hall cpu (List.mem_cons_self _ _)
    have hlt := hl cpu (List.mem_cons_self _ _)
    simp only [power_down_loop]
    split_ifs with ho hskip hload hbrk hbrk2
    · exact ih hlrest hrest
    · exfalso
      rw [l_nr_threshold_eq_two _ _
        (guarded_two_le e target s cpu hg hn ho hlt (fun h => hskip (Or.inl h)))] at hload
      rcases hcpu ho with h | h
      · exact hskip h
      · exact h hload
    · exfalso
      rw [l_nr_threshold_eq_two _ _
        (guarded_two_le e target s cpu hg hn ho hlt (fun h => hskip (Or.inl h)))] at hload
      rcases hcpu ho with h | h
      · exact hskip h
      · exact h hload
    · omega
    · exact ih hlrest hrest
    · exact ih hlrest hrest

theorem power_down_loop_result (t : Tunables) (e : Env) (target : Nat) (l : List Nat)
    (s : Cpus) (hg : guarded e target s)
    (hn : target < num_online_cpus e.nr_cpu_ids s.online)
    (hl : ∀ c ∈ l, c < e.nr_cpu_ids) :
    num_online_cpus e.nr_cpu_ids (power_down_loop t e target l s).1.online = target
      ∨ (target < num_online_cpus e.nr_cpu_ids (power_down_loop t e target l s).1.online
          ∧ ∀ c ∈ l, settled t e (power_down_loop t e target l s).1 c) := by
  induction l generalizing s with
  | nil => exact Or.inr ⟨hn, by simp⟩
  | cons cpu rest ih =>
    have hrest : ∀ c ∈ rest, c < e.nr_cpu_ids := fun c hc => hl c (List.mem_cons_of_mem _ hc)
    have hcpu : cpu < e.nr_cpu_ids := hl cpu (List.mem_cons_self _ _)
    simp only [power_down_loop]
    split_ifs with ho hskip hload hbrk hbrk2
    · rcases ih s hg hn hrest with h | ⟨h1, h2⟩
      · exact Or.inl h
      · refine Or.inr ⟨h1, fun c hc => ?_⟩
        rcases List.mem_cons.mp hc with hc | hc
        · subst hc
          intro _
          rw [power_down_loop_ip_info]
          exact Or.inl hskip
        · exact h2 c hc
    · left
      have hcount := num_online_cpus_set_false e.nr_cpu_ids cpu s.online
      rw [if_pos ⟨hcpu, ho⟩] at hcount
      simp only [cpu_down] at hbrk ⊢
      omega
    · have hcount := num_online_cpus_set_false e.nr_cpu_ids cpu s.online
      rw [if_pos ⟨hcpu, ho⟩] at hcount
      have hn2 : target < num_online_cpus e.nr_cpu_ids (cpu_down cpu s).online := by
        simp only [cpu_down] at hbrk ⊢
        omega
      rcases ih (cpu_down cpu s)
          (guarded_cpu_down e target s cpu hg (fun h => hskip (Or.inl h))) hn2 hrest with h | ⟨h1, h2⟩
      · exact Or.inl h
      · refine Or.inr ⟨h1, fun c hc => ?_⟩
        rcases List.mem_cons.mp hc with hc | hc
        · subst hc
          intro hon
          have := ((power_down_loop_online t e target rest (cpu_down c s) c).mp hon).1
          simp [cpu_down] at this
        · exact h2 c hc
    · omega
    · rcases ih s hg hn hrest with h | ⟨h1, h2⟩
      · exact Or.inl h
      · refine Or.inr ⟨h1, fun c hc => ?_⟩
        rcases List.mem_cons.mp hc with hc | hc
        · subst hc
          intro _
          rw [power_down_loop_ip_info]
          rw [l_nr_threshold_eq_two _ _
            (guarded_two_le e target s c hg hn ho hcpu (fun h => hskip (Or.inl h)))] at hload
          exact Or.inr hload
        · exact h2 c hc
    · rcases ih s hg hn hrest with h | ⟨h1, h2⟩
      · exact Or.inl h
      · refine Or.inr ⟨h1, fun c hc => ?_⟩
        rcases List.mem_cons.mp hc with hc | hc
        · subst hc
          intro hon
          exact absurd ((power_down_loop_online t e target rest s c).mp hon).1 ho
        · exact h2 c hc

theorem power_up_loop_of_done (e : Env) (target : Nat) (l : List Nat) (s : Cpus)
    (hall : ∀ c ∈ l, s.online c = true ∨ c ≤ 3) :
    power_up_loop e target l s = (s, []) := by
  induction l with
  | nil => rfl
  | cons cpu rest ih =>
    have hrest : ∀ c ∈ rest, s.online c = true ∨ c ≤ 3 :=
      fun c hc => hall c (List.mem_cons_of_mem _ hc)
    simp only [power_up_loop]
    split_ifs with ho hres hbrk
    · exact ih hrest
    · exact ih hrest
    · rcases hall cpu (List.mem_cons_self _ _) with h | h
      · exact absurd h ho
      · exact absurd h hres
    · rcases hall cpu (List.mem_cons_self _ _) with h | h
      · exact absurd h ho
      · exact absurd h hres

theorem power_up_loop_result (e : Env) (target : Nat) (l : List Nat) (s : Cpus)
    (hn : num_online_cpus e.nr_cpu_ids s.online < target)
    (hl : ∀ c ∈ l, c < e.nr_cpu_ids) :
    num_online_cpus e.nr_cpu_ids (power_up_loop e target l s).1.online = target
      ∨ (num_online_cpus e.nr_cpu_ids (power_up_loop e target l s).1.online < target
          ∧ ∀ c ∈ l, (power_up_loop e target l s).1.online c = true ∨ c ≤ 3) := by
  induction l generalizing s with
  | nil => exact Or.inr ⟨hn, by simp⟩
  | cons cpu rest ih =>
    have hrest : ∀ c ∈ rest, c < e.nr_cpu_ids := fun c hc => hl c (List.mem_cons_of_mem _ hc)
    have hcpu : cpu < e.nr_cpu_ids := hl cpu (List.mem_cons_self _ _)
    simp only [power_up_loop]
    split_ifs with ho hres hbrk
    · rcases ih s hn hrest with h | ⟨h1, h2⟩
      · exact Or.inl h
      · refine Or.inr ⟨h1, fun c hc => ?_⟩
        rcases List.mem_cons.mp hc with hc | hc
        · subst hc
          exact Or.inl ((power_up_loop_online e target rest s c).mpr (Or.inl ho))
        · exact h2 c hc
    · rcases ih s hn hrest with h | ⟨h1, h2⟩
      · exact Or.inl h
      · refine Or.inr ⟨h1, fun c hc => ?_⟩
        rcases List.mem_cons.mp hc with hc | hc
        · subst hc
          exact Or.inr hres
        · exact h2 c hc
    · left
      have hcount := num_online_cpus_set_true e.nr_cpu_ids cpu s.online
      rw [if_pos ⟨hcpu, by simpa using ho⟩] at hcount
      simp only [set_cpu_up_time, cpu_up] at hbrk ⊢
      omega
    · have hcount := num_online_cpus_set_true e.nr_cpu_ids cpu s.online
      rw [if_pos ⟨hcpu, by simpa using ho⟩] at hcount
      have hn2 : num_online_cpus e.nr_cpu_ids
          (set_cpu_up_time cpu (e.ktime_ms cpu) (cpu_up cpu s)).online < target := by
        simp only [set_cpu_up_time, cpu_up] at hbrk ⊢
        omega
      rcases ih _ hn2 hrest with h | ⟨h1, h2⟩
      · exact Or.inl h
      · refine Or.inr ⟨h1, fun c hc => ?_⟩
        rcases List.mem_cons.mp hc with hc | hc
        · subst hc
          refine Or.inl ((power_up_loop_online e target rest _ c).mpr (Or.inl ?_))
          simp [set_cpu_up_time, cpu_up]
        · exact h2 c hc

theorem settled_after_update (t : Tunables) (e : Env) (s r : Cpus) (c : Nat)
    (hc : c < e.nr_cpu_ids) (hinfo : r.ip_info = (update_per_cpu_stat e s).ip_info)
    (hsub : r.online c = true → s.online c = true) (hset : settled t e r c) :
    settled t e (update_per_cpu_stat e r) c := by
  intro hon
  rw [update_per_cpu_stat_online] at hon
  have hsame : (update_per_cpu_stat e r).ip_info c = r.ip_info c := by
    rw [update_per_cpu_stat_ip_info, if_pos hc, if_pos hon, hinfo, update_per_cpu_stat_ip_info,
      if_pos hc, if_pos (hsub hon)]
  rw [hsame]
  exact hset hon

theorem uint_to_int_of_lt (x : Nat) (h : x < 2 ^ 31) : uint_to_int x = (x : Int) := by
  unfold uint_to_int
  have h1 : x % 2 ^ 32 = x := Nat.mod_eq_of_lt (by omega)
  rw [h1, if_pos h]

theorem int_to_uint_natCast (x : Nat) (h : x < 2 ^ 31) : int_to_uint (x : Int) = x := by
  unfold int_to_uint
  have h1 : ((x : Int) % 2 ^ 32) = ((x % 2 ^ 32 : Nat) : Int) := by norm_cast
  rw [h1, Int.toNat_ofNat]
  exact Nat.mod_eq_of_lt (by omega)

theorem num_online_cpus_le (n : Nat) (f : Nat → Bool) : num_online_cpus n f ≤ n := by
  induction n with
  | zero => simp [num_online_cpus]
  | succ m ih =>
    simp only [num_online_cpus]
    split_ifs <;> omega

/-- When the computed target and the online count are below `2 ^ 31`, the signed and
the unsigned comparisons of `cpu_up_down_work` agree with the comparison of the
values themselves. -/
theorem cpu_up_down_work_of_lt (t : Tunables) (e : Env) (s : Cpus)
    (ht : calculate_thread_stats e.FSHIFT t.min_cpus_online t.max_cpus_online t.nr_fshift
      e.current_profile e.avg_nr_run < 2 ^ 31)
    (hn : e.nr_cpu_ids < 2 ^ 31) :
    cpu_up_down_work t e s
      = if calculate_thread_stats e.FSHIFT t.min_cpus_online t.max_cpus_online t.nr_fshift
            e.current_profile e.avg_nr_run = num_online_cpus e.nr_cpu_ids s.online then (s, [])
        else if calculate_thread_stats e.FSHIFT t.min_cpus_online t.max_cpus_online t.nr_fshift
            e.current_profile e.avg_nr_run < num_online_cpus e.nr_cpu_ids s.online then
          power_down_loop t e
            (calculate_thread_stats e.FSHIFT t.min_cpus_online t.max_cpus_online t.nr_fshift
              e.current_profile e.avg_nr_run) (List.range e.nr_cpu_ids) (update_per_cpu_stat e s)
        else
          power_up_loop e
            (calculate_thread_stats e.FSHIFT t.min_cpus_online t.max_cpus_online t.nr_fshift
              e.current_profile e.avg_nr_run) (List.range e.nr_cpu_ids)
            (update_per_cpu_stat e s) := by
  have hon : num_online_cpus e.nr_cpu_ids s.online < 2 ^ 31 :=
    lt_of_le_of_lt (num_online_cpus_le _ _) hn
  simp only [cpu_up_down_work]
  rw [uint_to_int_of_lt _ ht, uint_to_int_of_lt _ hon, int_to_uint_natCast _ ht]
  simp only [Nat.cast_inj, Nat.cast_lt]

/-- C7: idempotence of a pass. For every state, every environment with
`nr_cpu_ids ≤ NR_CPUS < 2 ^ 31` and every well-formed configuration
(`1 ≤ min_cpus_online ≤ max_cpus_online ≤ NR_CPUS`, what the setters maintain),
running `cpu_up_down_work` a second time with the same tunables, the same load
samples and the same clock readings issues no command, and the online mask after the
second run is the mask after the first. Power commands are taken to succeed. -/
theorem cpu_up_down_work_idempotent (NR_CPUS : Nat) (t : Tunables) (e : Env) (s : Cpus)
    (hb : bounds_ok NR_CPUS t) (hN : NR_CPUS < 2 ^ 31) (hids : e.nr_cpu_ids ≤ NR_CPUS) :
    (cpu_up_down_work t e (cpu_up_down_work t e s).1).2 = []
      ∧ (cpu_up_down_work t e (cpu_up_down_work t e s).1).1.online
          = (cpu_up_down_work t e s).1.online := by
  obtain ⟨hb1, hb2, hb3⟩ := hb
  have hsmall : calculate_thread_stats e.FSHIFT t.min_cpus_online t.max_cpus_online
      t.nr_fshift e.current_profile e.avg_nr_run < 2 ^ 31 :=
    lt_of_le_of_lt (calculate_thread_stats_loop_le _ _ _ _ _ _ _ hb2) (by omega)
  have hn : e.nr_cpu_ids < 2 ^ 31 := by omega
  have hg : guarded e (calculate_thread_stats e.FSHIFT t.min_cpus_online t.max_cpus_online
      t.nr_fshift e.current_profile e.avg_nr_run) (update_per_cpu_stat e s) :=
    Or.inl (le_trans hb1 (calculate_thread_stats_loop_ge _ _ _ _ _ _ _))
  have hrange : ∀ c ∈ List.range e.nr_cpu_ids, c < e.nr_cpu_ids :=
    fun c hc => List.mem_range.mp hc
  rw [cpu_up_down_work_of_lt t e (cpu_up_down_work t e s).1 hsmall hn,
    cpu_up_down_work_of_lt t e s hsmall hn]
  generalize calculate_thread_stats e.FSHIFT t.min_cpus_online t.max_cpus_online t.nr_fshift
      e.current_profile e.avg_nr_run = target at hg ⊢
  by_cases heq : target = num_online_cpus e.nr_cpu_ids s.online
  · rw [if_pos heq]
    exact ⟨by rw [if_pos heq], by rw [if_pos heq]⟩
  · rw [if_neg heq]
    by_cases hlt : target < num_online_cpus e.nr_cpu_ids s.online
    · rw [if_pos hlt]
      have hlt2 : target < num_online_cpus e.nr_cpu_ids (update_per_cpu_stat e s).online := by
        rw [update_per_cpu_stat_online]
        exact hlt
      rcases power_down_loop_result t e target (List.range e.nr_cpu_ids)
          (update_per_cpu_stat e s) hg hlt2 hrange with h | ⟨h1, h2⟩
      · rw [if_pos h.symm]
        exact ⟨rfl, rfl⟩
      · rw [if_neg (by omega), if_pos h1]
        have h1u : target < num_online_cpus e.nr_cpu_ids (update_per_cpu_stat e
            (power_down_loop t e target (List.range e.nr_cpu_ids)
              (update_per_cpu_stat e s)).1).online := by
          rw [update_per_cpu_stat_online]
          exact h1
        have hg2 : guarded e target (update_per_cpu_stat e
            (power_down_loop t e target (List.range e.nr_cpu_ids)
              (update_per_cpu_stat e s)).1) := by
          rcases hg with h | ⟨c, hc4, hcn, hco⟩
          · exact Or.inl h
          · refine Or.inr ⟨c, hc4, hcn, ?_⟩
            rw [update_per_cpu_stat_online]
            refine (power_down_loop_online t e target _ _ c).mpr ⟨hco, fun hmem => ?_⟩
            exact (power_down_loop_mem t e target _ _ c hmem).2.2.1 (Or.inl (by omega))
        rw [power_down_loop_of_settled t e target _ _ hg2 h1u hrange]
        · exact ⟨rfl, update_per_cpu_stat_online _ _⟩
        · intro c hc
          apply settled_after_update t e s _ c (hrange c hc)
            (power_down_loop_ip_info t e target _ _)
          · intro hon
            have := ((power_down_loop_online t e target _ _ c).mp hon).1
            rw [update_per_cpu_stat_online] at this
            exact this
          · exact h2 c hc
    · rw [if_neg hlt]
      have hgt : num_online_cpus e.nr_cpu_ids (update_per_cpu_stat e s).online < target := by
        rw [update_per_cpu_stat_online]
        omega
      rcases power_up_loop_result e target (List.range e.nr_cpu_ids)
          (update_per_cpu_stat e s) hgt hrange with h | ⟨h1, h2⟩
      · rw [if_pos h.symm]
        exact ⟨rfl, rfl⟩
      · rw [if_neg (by omega), if_neg (by omega)]
        rw [power_up_loop_of_done e target _ _]
        · exact ⟨rfl, update_per_cpu_stat_online _ _⟩
        · intro c hc
          rw [update_per_cpu_stat_online]
          exact h2 c hc

theorem cpu_up_down_work_idempotent_witness :
    (bounds_ok 8 default_tunables ∧ 8 < 2 ^ 31 ∧ (sample_env 0 300 1000000).nr_cpu_ids ≤ 8) ∧
    ((cpu_up_down_work default_tunables (sample_env 0 300 1000000)
        (cpu_up_down_work default_tunables (sample_env 0 300 1000000) all_eight).1).2 = []
      ∧ (cpu_up_down_work default_tunables (sample_env 0 300 1000000)
          (cpu_up_down_work default_tunables (sample_env 0 300 1000000) all_eight).1).1.online
          = (cpu_up_down_work default_tunables (sample_env 0 300 1000000) all_eight).1.online) :=
  have hb : bounds_ok 8 default_tunables := by
    simp [bounds_ok, default_tunables]
  have hN : 8 < 2 ^ 31 := by norm_num
  have hids : (sample_env 0 300 1000000).nr_cpu_ids ≤ 8 := by
    simp [sample_env]
  ⟨⟨hb, hN, hids⟩,
   cpu_up_down_work_idempotent 8 default_tunables (sample_env 0 300 1000000) all_eight
    hb hN hids⟩

/-- Outside well-formed bounds the second pass can act. With both bounds at 0
(target 0) and no reserved cpu online, the first pass powers down cpu 5 and leaves
cpu 4 (load 600, threshold 525) as the only online cpu; in the second pass the shift
count `1 / 1` doubles the threshold to 1050 and cpu 4 is powered down. -/
theorem cpu_up_down_work_unguarded_second_pass :
    (cpu_up_down_work zero_bounds busy_four_env four_and_five).2 = [Cmd.cpu_down 5]
    ∧ (cpu_up_down_work zero_bounds busy_four_env
        (cpu_up_down_work zero_bounds busy_four_env four_and_five).1).2 = [Cmd.cpu_down 4] := by
  constructor <;>
  simp [cpu_up_down_work, uint_to_int, int_to_uint, zero_bounds, busy_four_env,
    default_tunables, sample_env, four_and_five,
    calculate_thread_stats, calculate_thread_stats_loop, loop_cond, sub_u32, shl_u32,
    threshold_size, nr_run_thresholds_balanced, table_ptr, UINT_MAX, num_online_cpus,
    update_per_cpu_stat, List.range_succ, power_down_loop, set_cpu_nr_running, set_cpu_up_time,
    sub_u64, int_to_ulong, l_nr_threshold, CPU_NR_THRESHOLD, cpu_down]

/-- Outside well-formed bounds the second pass can act. With both bounds at `2 ^ 31`
the computed target is negative as an `int`, so with eight cpus online the signed
test `target < online_cpus` selects the power-down loop; the unsigned test
`num_online_cpus() <= target` then stops it after one command. The first pass powers
down cpu 4 and the second pass powers down cpu 5. -/
theorem cpu_up_down_work_wrapped_target_second_pass :
    (cpu_up_down_work wrapped_bounds (sample_env 0 0 1000000) all_eight).2 = [Cmd.cpu_down 4]
    ∧ (cpu_up_down_work wrapped_bounds (sample_env 0 0 1000000)
        (cpu_up_down_work wrapped_bounds (sample_env 0 0 1000000) all_eight).1).2
        = [Cmd.cpu_down 5] := by
  constructor <;>
  simp [cpu_up_down_work, uint_to_int, int_to_uint, wrapped_bounds,
    default_tunables, sample_env, all_eight,
    calculate_thread_stats, calculate_thread_stats_loop, loop_cond, sub_u32, shl_u32,
    threshold_size, nr_run_thresholds_balanced, table_ptr, UINT_MAX, num_online_cpus,
    update_per_cpu_stat, List.range_succ, power_down_loop, set_cpu_nr_running, set_cpu_up_time,
    sub_u64, int_to_ulong, l_nr_threshold, CPU_NR_THRESHOLD, cpu_down]

/-! ## Control surface -/

/-- C8: the setters of `min_cpus_online` and `max_cpus_online`. Well-formed bounds
stay well-formed under either setter and any input; an input that did not convert
or lies outside `1 .. NR_CPUS` returns `-EINVAL` and leaves the tunables as they
were; an accepted write of `v` to the minimum sets it to `v` and raises the maximum
to `v` exactly when the maximum was below `v`; an accepted write of `v` to the
maximum sets it to `v` and lowers the minimum to `v` exactly when the minimum was
above `v`. Accepted writes return `count`. -/
theorem store_min_max_cpus_online_spec (EINVAL : Int) (NR_CPUS : Nat) (input : Option Nat)
    (count : Nat) (t : Tunables) :
    (bounds_ok NR_CPUS t →
      bounds_ok NR_CPUS (store_min_cpus_online EINVAL NR_CPUS input count t).1
        ∧ bounds_ok NR_CPUS (store_max_cpus_online EINVAL NR_CPUS input count t).1)
    ∧ ((∀ v, input = some v → v < 1 ∨ NR_CPUS < v) →
        store_min_cpus_online EINVAL NR_CPUS input count t = (t, -EINVAL)
          ∧ store_max_cpus_online EINVAL NR_CPUS input count t = (t, -EINVAL))
    ∧ (∀ v, input = some v → 1 ≤ v → v ≤ NR_CPUS →
        (store_min_cpus_online EINVAL NR_CPUS input count t).2 = (count : Int)
          ∧ (store_min_cpus_online EINVAL NR_CPUS input count t).1.min_cpus_online = v
          ∧ (store_min_cpus_online EINVAL NR_CPUS input count t).1.max_cpus_online
              = (if t.max_cpus_online < v then v else t.max_cpus_online)
          ∧ (store_max_cpus_online EINVAL NR_CPUS input count t).2 = (count : Int)
          ∧ (store_max_cpus_online EINVAL NR_CPUS input count t).1.max_cpus_online = v
          ∧ (store_max_cpus_online EINVAL NR_CPUS input count t).1.min_cpus_online
              = (if t.min_cpus_online > v then v else t.min_cpus_online)) := by
  refine ⟨?_, ?_, ?_⟩
  · intro hb
    obtain ⟨h1, h2, h3⟩ := hb
    cases input with
    | none => exact ⟨⟨h1, h2, h3⟩, ⟨h1, h2, h3⟩⟩
    | some val =>
      simp only [store_min_cpus_online, store_max_cpus_online, bounds_ok]
      constructor
      · split_ifs with hrej hmax
        · exact ⟨h1, h2, h3⟩
        · simp only [not_or, not_lt] at hrej
          refine ⟨?_, ?_, ?_⟩ <;> dsimp only <;> omega
        · simp only [not_or, not_lt] at hrej
          refine ⟨?_, ?_, ?_⟩ <;> dsimp only <;> omega
      · split_ifs with hrej hmin
        · exact ⟨h1, h2, h3⟩
        · simp only [not_or, not_lt] at hrej
          refine ⟨?_, ?_, ?_⟩ <;> dsimp only <;> omega
        · simp only [not_or, not_lt] at hrej
          refine ⟨?_, ?_, ?_⟩ <;> dsimp only <;> omega
  · intro hrej
    cases input with
    | none => exact ⟨rfl, rfl⟩
    | some val =>
      have h : val < 1 ∨ val > NR_CPUS := hrej val rfl
      simp only [store_min_cpus_online, store_max_cpus_online]
      rw [if_pos h, if_pos h]
      exact ⟨rfl, rfl⟩
  · intro v hv h1 h2
    subst hv
    have hacc : ¬ (v < 1 ∨ v > NR_CPUS) := by omega
    simp only [store_min_cpus_online, store_max_cpus_online]
    rw [if_neg hacc, if_neg hacc]
    refine ⟨rfl, rfl, ?_, rfl, rfl, ?_⟩
    · split_ifs <;> rfl
    · split_ifs <;> rfl

theorem store_min_max_cpus_online_spec_witness :
    bounds_ok 8 default_tunables
    ∧ bounds_ok 8 (store_min_cpus_online 22 8 (some 6) 2 default_tunables).1
    ∧ bounds_ok 8 (store_max_cpus_online 22 8 (some 6) 2 default_tunables).1 :=
  have hb : bounds_ok 8 default_tunables := by
    simp [bounds_ok, default_tunables]
  ⟨hb, (store_min_max_cpus_online_spec 22 8 (some 6) 2 default_tunables).1 hb⟩

/-! ## Lifecycle -/

/-- When `alloc_workqueue` fails, `hima_hotplug_start` returns `-ENOMEM` and
`hima_hotplug_active_eval_fn(1)` leaves `hima_hotplug_active` at 0. -/
theorem hima_hotplug_start_alloc_failure (ENOMEM : Int) (register_ret : Int)
    (nr_cpu_ids : Nat) (d : Driver) (hne : ENOMEM ≠ 0) :
    (hima_hotplug_start ENOMEM false register_ret nr_cpu_ids d).2 = -ENOMEM
    ∧ (hima_hotplug_start ENOMEM false register_ret nr_cpu_ids d).2 ≠ 0
    ∧ (hima_hotplug_active_eval_fn ENOMEM false register_ret nr_cpu_ids 1
        d).hima_hotplug_active = 0 := by
  simp [hima_hotplug_start, hima_hotplug_active_eval_fn, hne]

/-- C9 when `state_register_client` fails (it returns `-1`) after the workqueue was
allocated: `hima_hotplug_start` takes `goto err_dev` with `ret` still 0, so it
returns 0, and `hima_hotplug_active_eval_fn(1)` then stores 1 in
`hima_hotplug_active`, although the workqueue was destroyed and no work is queued. -/
theorem hima_hotplug_start_register_failure (ENOMEM : Int) (nr_cpu_ids : Nat) :
    (hima_hotplug_start ENOMEM true (-1) nr_cpu_ids idle_driver).2 = 0
    ∧ (hima_hotplug_start ENOMEM true (-1) nr_cpu_ids idle_driver).1.hima_hotplug_active = 0
    ∧ (hima_hotplug_active_eval_fn ENOMEM true (-1) nr_cpu_ids 1
        idle_driver).hima_hotplug_active = 1
    ∧ (hima_hotplug_active_eval_fn ENOMEM true (-1) nr_cpu_ids 1 idle_driver).wq_allocated
        = false
    ∧ (hima_hotplug_active_eval_fn ENOMEM true (-1) nr_cpu_ids 1 idle_driver).work_queued
        = false := by
  simp [hima_hotplug_start, hima_hotplug_active_eval_fn, idle_driver]

end HimaHotplug
